import Mathlib

/-!
Shallow embedding of the `by_gene.ipynb` notebook (HIM72/dbsnp):
the gene locator `get_gene_loc`, the pagination cursor computation
`get_next_interval_start`, and the recursive interval paginator
`get_freq_by_interval`, together with theorems settling the frozen
claims about them.

Conventions of the embedding:
- HTTP services are modelled as pure functions from a request to a
  structured response (status code, parsed JSON payload, printable body).
- Python exceptions are modelled as explicit error values.  The source
  raises bare strings in several branches; following the specification's
  error taxonomy (its section 9 declares the bare-string raises a defect
  and the taxonomy the intended reading), the non-success branch of the
  locator is tagged as a transport error, the missing-data branches as
  lookup errors (Python's IndexError from indexing an empty list is a
  subclass of LookupError), the status-code branches of the paginator as
  transport/protocol errors, and the Python ValueError raised by
  `max([])`, by tuple unpacking of `split('@')`, or by `int(...)` as a
  value error.
- The Python global accumulator `coll` is threaded through the paginator
  explicitly and is returned in every outcome, succeeding or failing,
  since the global in the source keeps its contents when an exception
  propagates.
- Real time is modelled by a virtual clock (a natural number of
  seconds): issuing a request takes no virtual time, `time.sleep(1)`
  advances the clock by one.  Every issued request is recorded in a
  trace together with its timestamp.
-/

set_option maxHeartbeats 1000000

namespace ByGene

/-- Python `str.split('@')` on the character list of a key:
"a@b" gives ["a","b"], "ab" gives ["ab"], "@" gives ["",""]. -/
def splitOnAtSign : List Char → List (List Char)
  | [] => [[]]
  | c :: cs =>
    let r := splitOnAtSign cs
    if c = '@' then [] :: r
    else
      match r with
      | [] => [[c]]
      | p :: ps => (c :: p) :: ps

/-- Value of a decimal digit character, `none` on a non-digit. -/
def digitVal (c : Char) : Option Nat :=
  if '0' ≤ c ∧ c ≤ '9' then some (c.toNat - 48) else none

/-- Accumulating decimal reader for `pyNatOfChars`. -/
def pyNatAux : Nat → List Char → Option Nat
  | acc, [] => some acc
  | acc, c :: cs =>
    match digitVal c with
    | some d => pyNatAux (acc * 10 + d) cs
    | none => none

/-- Python `int(...)` restricted to unsigned decimal digit strings;
`none` models the ValueError on the empty string or a non-digit. -/
def pyNatOfChars : List Char → Option Nat
  | [] => none
  | cs => pyNatAux 0 cs

/-- Python `int(...)` on a character list: optional sign followed by
decimal digits; `none` models the ValueError on malformed input. -/
def pyIntOfChars : List Char → Option Int
  | '-' :: cs => (pyNatOfChars cs).map (fun n => -(n : Int))
  | '+' :: cs => (pyNatOfChars cs).map (fun n => (n : Int))
  | cs => (pyNatOfChars cs).map (fun n => (n : Int))

/-- Embedding of the per-key body of `get_next_interval_start`:
`length, start = k.split('@')` followed by `int(length) + int(start)`.
Returns `none` where Python raises a ValueError (wrong number of parts
or a malformed integer). -/
def keyStop (k : String) : Option Int :=
  match splitOnAtSign k.toList with
  | [lengthPart, startPart] =>
    match pyIntOfChars lengthPart, pyIntOfChars startPart with
    | some l, some s => some (l + s)
    | _, _ => none
  | _ => none

/-- Embedding of the `stops` list built by `get_next_interval_start`:
stop positions of all records of the mapping, in key order; `none` when
any key fails to parse. -/
def collectStops {α : Type} : List (String × α) → Option (List Int)
  | [] => some []
  | kv :: rest =>
    match keyStop kv.1, collectStops rest with
    | some s, some ss => some (s :: ss)
    | _, _ => none

/-- Embedding of `get_next_interval_start`: `max(stops) + 1`, where
`none` models the ValueError raised on an empty mapping (`max([])`) or
on a key that fails to parse. -/
def get_next_interval_start {α : Type} (result : List (String × α)) : Option Int :=
  match collectStops result with
  | some (s :: ss) => some (ss.foldl max s + 1)
  | _ => none

/-- Insertion into a Python dict modelled as an association list: an
existing key keeps its position and gets the new value, a fresh key is
appended (Python dicts preserve insertion order). -/
def dictInsert {α : Type} : List (String × α) → String → α → List (String × α)
  | [], k, v => [(k, v)]
  | (k', v') :: rest, k, v =>
    if k' = k then (k, v) :: rest else (k', v') :: dictInsert rest k v

/-- Python `dict.update`: fold the items of the right-hand mapping into
the left-hand one, overwriting on key collision. -/
def dictUpdate {α : Type} (coll items : List (String × α)) : List (String × α) :=
  items.foldl (fun c kv => dictInsert c kv.1 kv.2) coll

/-- Lookup in a JSON object modelled as an association list. -/
def pyLookup {α : Type} (tbl : List (String × α)) (k : String) : Option α :=
  (tbl.find? (fun kv => kv.1 == k)).map Prod.snd

/- ## Locator -/

/-- One element of the `genomicinfo` array of an esummary gene entry. -/
structure GenomicInfo where
  chraccver : String
  chrstart : Int
  chrstop : Int
deriving DecidableEq

/-- Gene entry of the esummary `result` object: the `genomicinfo` key
may be absent (`none`) or present with an array of records. -/
structure GeneEntry where
  genomicinfo : Option (List GenomicInfo)
deriving DecidableEq

/-- Parsed esummary response body: the `result` key may be absent;
when present it maps gene ids to entries. -/
structure SummaryData where
  result : Option (List (String × GeneEntry))
deriving DecidableEq

/-- Response of the esummary service: HTTP status and parsed body. -/
structure SummaryResponse where
  status : Nat
  data : SummaryData
deriving DecidableEq

/-- Errors of the locator, tagged per the specification's taxonomy:
the non-200 branch raises a transport error; the missing-data branches
and the IndexError on an empty `genomicinfo` array are lookup errors
(IndexError is a subclass of LookupError in Python). -/
inductive LocErr where
  | transportError (msg : String)
  | lookupError (msg : String)
deriving DecidableEq

/-- Embedding of `get_gene_loc`: resolve a gene id to
`(chraccver, chrstart, chrstop)` with `chrstart ≤ chrstop`, swapping
the upstream coordinates when they arrive reversed. -/
def get_gene_loc (service : String → SummaryResponse) (gene_id : String) :
    Except LocErr (String × Int × Int) :=
  let res := service gene_id
  if res.status ≠ 200 then
    .error (.transportError "Failed to get gene information")
  else
    match res.data.result with
    | none => .error (.lookupError "Genomic information is not avaible for this gene")
    | some tbl =>
      match pyLookup tbl gene_id with
      | none => .error (.lookupError "Genomic information is not avaible for this gene")
      | some entry =>
        match entry.genomicinfo with
        | none => .error (.lookupError "Genomic information is not avaible for this gene")
        | some [] => .error (.lookupError "list index out of range")
        | some (loc :: _) =>
          let chraccver := loc.chraccver
          let chrstart := loc.chrstart
          let chrstop := loc.chrstop
          if chrstart > chrstop then
            .ok (chraccver, chrstop, chrstart)
          else
            .ok (chraccver, chrstart, chrstop)

/- ## Interval paginator -/

/-- Request to the frequency interval service, as encoded in the URL
`{seq_id}:{start}:{stop - start + 1}`: a sequence id, a position and a
length. -/
structure FreqRequest where
  seq_id : String
  pos : Int
  len : Int
deriving DecidableEq

/-- URL built by `get_freq_by_interval` for the bounds of one call. -/
def api_url (seq_id : String) (start stop : Int) : String :=
  "https://api.ncbi.nlm.nih.gov/variation/v0/interval/" ++ seq_id ++ ":"
    ++ toString start ++ ":" ++ toString (stop - start + 1)
    ++ "/overlapping_frequency_records"

/-- Request issued by one call of `get_freq_by_interval` with the given
bounds. -/
def mkRequest (seq_id : String) (start stop : Int) : FreqRequest :=
  ⟨seq_id, start, stop - start + 1⟩

/-- Response of the frequency interval service: HTTP status, the parsed
`results` mapping of the body, and the printable body used in error
diagnostics. -/
structure FreqResponse (α : Type) where
  status : Nat
  results : List (String × α)
  body : String

/-- Errors of the paginator, tagged per the specification's taxonomy:
transport errors carry the request URL, the status and the response
body (the source interpolates all three into the raised message);
protocol errors carry the unrecognized status; a value error models the
Python ValueError from `get_next_interval_start`. -/
inductive PagErr where
  | transportError (url : String) (status : Nat) (body : String)
  | protocolError (status : Nat)
  | valueError
deriving DecidableEq

/-- Terminal outcome of one top-level paginator call. -/
inductive PagOutcome where
  | done
  | failed (e : PagErr)
  | outOfFuel
deriving DecidableEq

/-- Result of one top-level paginator call: the timestamped trace of
issued requests, the final contents of the global accumulator `coll`
(kept even when an error propagates, since the global survives the
exception), and the outcome. -/
structure PagResult (α : Type) where
  trace : List (Nat × FreqRequest)
  coll : List (String × α)
  outcome : PagOutcome

/-- Embedding of `get_freq_by_interval`.  `fuel` bounds the recursion
depth (the source recursion is unbounded; `outOfFuel` is the modelling
artifact for a run longer than the supplied fuel).  `now` is the
virtual clock; the `time.sleep(1)` before the recursive call advances
it by one.  Branches in source order: status 200 merges and returns,
status 206 merges, computes the next start from the whole accumulator
and recurses, status ≥ 400 raises a transport error carrying the URL
and body, anything else raises a protocol error. -/
def get_freq_by_interval {α : Type} (service : FreqRequest → FreqResponse α) :
    Nat → String → Int → Int → List (String × α) → Nat → PagResult α
  | 0, _, _, _, coll, _ => ⟨[], coll, .outOfFuel⟩
  | fuel + 1, seq_id, start, stop, coll, now =>
    let req := mkRequest seq_id start stop
    let res := service req
    if res.status = 200 then
      ⟨[(now, req)], dictUpdate coll res.results, .done⟩
    else if res.status = 206 then
      let coll' := dictUpdate coll res.results
      match get_next_interval_start coll' with
      | none => ⟨[(now, req)], coll', .failed .valueError⟩
      | some ns =>
        let rest := get_freq_by_interval service fuel seq_id ns stop coll' (now + 1)
        ⟨(now, req) :: rest.trace, rest.coll, rest.outcome⟩
    else if res.status ≥ 400 then
      ⟨[(now, req)], coll, .failed (.transportError (api_url seq_id start stop) res.status res.body)⟩
    else
      ⟨[(now, req)], coll, .failed (.protocolError res.status)⟩

/- ## Model of the external frequency service (for the pagination claims) -/

/-- Record held by the modelled frequency service: a composite key and
the variant's length and start encoded in it. -/
structure SRec where
  key : String
  len : Int
  start : Int
deriving DecidableEq

/-- Stop position of a record, as the notebook computes it from the
composite key: `int(length) + int(start)`. -/
def rstop (r : SRec) : Int := r.start + r.len

/-- Overlap of a record's span `[start, rstop]` with the queried
interval `[pos, pos + len - 1]`. -/
def overlapsB (r : SRec) (pos len : Int) : Bool :=
  decide (pos ≤ rstop r) && decide (r.start ≤ pos + len - 1)

/-- Modelled from the spec (section 6, the frequency interval service
is an external black box): the service holds a fixed set of records in
position order, answers a query with all records overlapping the
queried interval, capped at its page size `P`; a complete answer gets
status 200, a capped one status 206. -/
def serviceOf (P : Nat) (recs : List SRec) (req : FreqRequest) : FreqResponse Unit :=
  let overl := recs.filter (fun r => overlapsB r req.pos req.len)
  if overl.length ≤ P then
    ⟨200, overl.map (fun r => (r.key, ())), "complete"⟩
  else
    ⟨206, (overl.take P).map (fun r => (r.key, ())), "first page only"⟩

/- ## Model of the notebook's top-level run (for the rate-limit claim) -/

/-- Observable result of one top-level notebook run: the virtual times
of all issued external requests (the esummary request first, then every
frequency request), the locator's answer, and the paginator's final
accumulator and outcome. -/
structure RunResult (α : Type) where
  request_times : List Nat
  loc : Except LocErr (String × Int × Int)
  coll : List (String × α)
  outcome : PagOutcome

/-- Embedding of the notebook's top-level cells: `get_gene_loc` on the
gene id, then `coll = {}` and `get_freq_by_interval` on the resolved
location.  The virtual clock starts at `t0`; the locator contains no
sleep, and no code runs between the locator's request and the
paginator's first request, so both are stamped `t0` (only the
`time.sleep(1)` inside the paginator advances the clock). -/
def run_notebook {α : Type} (sumService : String → SummaryResponse)
    (freqService : FreqRequest → FreqResponse α) (fuel : Nat)
    (gene_id : String) (t0 : Nat) : RunResult α :=
  match get_gene_loc sumService gene_id with
  | .error e => ⟨[t0], .error e, [], .done⟩
  | .ok (chraccver, chrstart, chrstop) =>
    let pr := get_freq_by_interval freqService fuel chraccver chrstart chrstop [] t0
    ⟨t0 :: pr.trace.map Prod.fst, .ok (chraccver, chrstart, chrstop), pr.coll, pr.outcome⟩

/- ## Helper lemmas on dictionaries -/

theorem dictInsert_of_not_mem {α : Type} (l : List (String × α)) (k : String) (v : α)
    (h : k ∉ l.map Prod.fst) : dictInsert l k v = l ++ [(k, v)] := by
  induction l with
  | nil => rfl
  | cons kv rest ih =>
    obtain ⟨k', v'⟩ := kv
    simp only [List.map_cons, List.mem_cons] at h
    push_neg at h
    simp only [dictInsert]
    rw [if_neg (fun hkk => h.1 hkk.symm), ih h.2]
    rfl

theorem mem_keys_dictInsert {α : Type} (l : List (String × α)) (k : String) (v : α) (a : String) :
    a ∈ (dictInsert l k v).map Prod.fst ↔ a = k ∨ a ∈ l.map Prod.fst := by
  induction l with
  | nil => simp [dictInsert]
  | cons kv rest ih =>
    obtain ⟨k', v'⟩ := kv
    simp only [dictInsert]
    by_cases hk : k' = k
    · subst hk
      simp
    · rw [if_neg hk]
      simp only [List.map_cons, List.mem_cons, ih]
      tauto

theorem mem_keys_dictUpdate {α : Type} (items l : List (String × α)) (a : String) :
    a ∈ (dictUpdate l items).map Prod.fst
      ↔ a ∈ l.map Prod.fst ∨ a ∈ items.map Prod.fst := by
  induction items generalizing l with
  | nil => simp [dictUpdate]
  | cons kv rest ih =>
    have hstep : dictUpdate l (kv :: rest) = dictUpdate (dictInsert l kv.1 kv.2) rest := rfl
    rw [hstep, ih, mem_keys_dictInsert]
    simp only [List.map_cons, List.mem_cons]
    tauto

theorem dictUpdate_of_nodup {α : Type} (items l : List (String × α))
    (h : (l.map Prod.fst ++ items.map Prod.fst).Nodup) :
    dictUpdate l items = l ++ items := by
  induction items generalizing l with
  | nil => simp [dictUpdate]
  | cons kv rest ih =>
    obtain ⟨k, v⟩ := kv
    have hstep : dictUpdate l ((k, v) :: rest) = dictUpdate (dictInsert l k v) rest := rfl
    have hdisj := List.nodup_append.mp h
    have hknotin : k ∉ l.map Prod.fst := by
      intro hmem
      exact (hdisj.2.2 hmem) (by simp)
    rw [hstep, dictInsert_of_not_mem l k v hknotin, ih]
    · simp
    · simpa using h

/- ## Helper lemmas on the maximum computation -/

theorem foldl_max_mem (l : List Int) (a : Int) : l.foldl max a ∈ a :: l := by
  induction l generalizing a with
  | nil => simp
  | cons c t ih =>
    simp only [List.foldl_cons]
    rcases List.mem_cons.mp (ih (max a c)) with h | h
    · rw [h]
      rcases max_choice a c with hc | hc <;> rw [hc] <;> simp
    · simp [List.mem_cons_of_mem, h]

theorem le_foldl_max (l : List Int) (a : Int) : ∀ x ∈ a :: l, x ≤ l.foldl max a := by
  induction l generalizing a with
  | nil => intro x hx; simp only [List.mem_singleton] at hx; simp [hx]
  | cons c t ih =>
    intro x hx
    simp only [List.foldl_cons]
    rcases List.mem_cons.mp hx with rfl | hx
    · exact le_trans (le_max_left x c) (ih (max x c) _ (List.mem_cons_self _ _))
    · rcases List.mem_cons.mp hx with rfl | hx
      · exact le_trans (le_max_right a x) (ih (max a x) _ (List.mem_cons_self _ _))
      · exact ih (max a c) x (List.mem_cons_of_mem _ hx)

/- ## Helper lemmas on the next-start computation -/

theorem collectStops_spec {α : Type} (coll : List (String × α))
    (h : ∀ kv ∈ coll, (keyStop kv.1).isSome) :
    ∃ ss, collectStops coll = some ss
      ∧ ss.length = coll.length
      ∧ (∀ s ∈ ss, ∃ kv ∈ coll, keyStop kv.1 = some s)
      ∧ (∀ kv ∈ coll, ∀ v, keyStop kv.1 = some v → v ∈ ss) := by
  induction coll with
  | nil => exact ⟨[], rfl, rfl, by simp, by simp⟩
  | cons kv rest ih =>
    obtain ⟨s, hs⟩ := Option.isSome_iff_exists.mp (h kv (by simp))
    obtain ⟨ss, hss, hlen, hmem, hall⟩ := ih (fun x hx => h x (List.mem_cons_of_mem _ hx))
    refine ⟨s :: ss, ?_, by simp [hlen], ?_, ?_⟩
    · simp [collectStops, hs, hss]
    · intro x hx
      rcases List.mem_cons.mp hx with rfl | hx
      · exact ⟨kv, by simp, hs⟩
      · obtain ⟨kv', hkv', hkv's⟩ := hmem x hx
        exact ⟨kv', List.mem_cons_of_mem _ hkv', hkv's⟩
    · intro kv' hkv' v hv
      rcases List.mem_cons.mp hkv' with rfl | hkv'
      · have hsv : s = v := Option.some.inj (hs.symm.trans hv)
        simp [← hsv]
      · exact List.mem_cons_of_mem _ (hall kv' hkv' v hv)

theorem collectStops_eq_none {α : Type} (coll : List (String × α)) (kv : String × α)
    (hmem : kv ∈ coll) (hbad : keyStop kv.1 = none) : collectStops coll = none := by
  induction coll with
  | nil => cases hmem
  | cons kv' rest ih =>
    rcases List.mem_cons.mp hmem with rfl | hmem
    · simp [collectStops, hbad]
    · cases hk : keyStop kv'.1 <;> simp [collectStops, hk, ih hmem]

theorem get_next_interval_start_spec {α : Type} (coll : List (String × α))
    (hne : coll ≠ []) (h : ∀ kv ∈ coll, (keyStop kv.1).isSome) :
    ∃ mx, get_next_interval_start coll = some (mx + 1)
      ∧ (∃ kv ∈ coll, keyStop kv.1 = some mx)
      ∧ (∀ kv ∈ coll, ∀ v, keyStop kv.1 = some v → v ≤ mx) := by
  obtain ⟨ss, hss, hlen, hmem, hall⟩ := collectStops_spec coll h
  have hssne : ss ≠ [] := by
    intro h0
    rw [h0] at hlen
    exact hne (List.eq_nil_of_length_eq_zero hlen.symm)
  obtain ⟨s, ss', rfl⟩ := List.exists_cons_of_ne_nil hssne
  refine ⟨ss'.foldl max s, ?_, ?_, ?_⟩
  · simp [get_next_interval_start, hss]
  · exact hmem _ (foldl_max_mem ss' s)
  · intro kv hkv v hv
    exact le_foldl_max ss' s v (hall kv hkv v hv)

theorem get_next_interval_start_keys_only {α β : Type}
    (c1 : List (String × α)) (c2 : List (String × β))
    (hk : ∀ k, k ∈ c1.map Prod.fst ↔ k ∈ c2.map Prod.fst) :
    get_next_interval_start c1 = get_next_interval_start c2 := by
  by_cases hall : ∀ kv ∈ c1, (keyStop kv.1).isSome
  · have hall2 : ∀ kv ∈ c2, (keyStop kv.1).isSome := by
      intro kv2 hkv2
      obtain ⟨kv1, hkv1, hfst⟩ :=
        List.mem_map.mp ((hk kv2.1).mpr (List.mem_map_of_mem _ hkv2))
      rw [← hfst]
      exact hall kv1 hkv1
    by_cases hne : c1 = []
    · subst hne
      cases h2 : c2 with
      | nil => rfl
      | cons kv2 rest =>
        have : kv2.1 ∈ ([] : List (String × α)).map Prod.fst :=
          (hk kv2.1).mpr (by rw [h2]; simp)
        simp at this
    · have hne2 : c2 ≠ [] := by
        intro h0
        obtain ⟨kv1, rest, rfl⟩ := List.exists_cons_of_ne_nil hne
        have : kv1.1 ∈ c2.map Prod.fst := (hk kv1.1).mp (by simp)
        rw [h0] at this
        simp at this
      obtain ⟨mx1, he1, ⟨kv1, hkv1, hs1⟩, hb1⟩ := get_next_interval_start_spec c1 hne hall
      obtain ⟨mx2, he2, ⟨kv2, hkv2, hs2⟩, hb2⟩ := get_next_interval_start_spec c2 hne2 hall2
      have h12 : mx1 ≤ mx2 := by
        obtain ⟨kv2', hkv2', hfst⟩ :=
          List.mem_map.mp ((hk kv1.1).mp (List.mem_map_of_mem _ hkv1))
        exact hb2 kv2' hkv2' mx1 (by rw [hfst]; exact hs1)
      have h21 : mx2 ≤ mx1 := by
        obtain ⟨kv1', hkv1', hfst⟩ :=
          List.mem_map.mp ((hk kv2.1).mpr (List.mem_map_of_mem _ hkv2))
        exact hb1 kv1' hkv1' mx2 (by rw [hfst]; exact hs2)
      rw [he1, he2, le_antisymm h12 h21]
  · push_neg at hall
    obtain ⟨kv, hkv, hbad⟩ := hall
    have hbad' : keyStop kv.1 = none := Option.not_isSome_iff_eq_none.mp hbad
    obtain ⟨kv2, hkv2, hfst⟩ :=
      List.mem_map.mp ((hk kv.1).mp (List.mem_map_of_mem _ hkv))
    have hbad2 : keyStop kv2.1 = none := by rw [hfst]; exact hbad'
    have h1 : collectStops c1 = none := collectStops_eq_none c1 kv hkv hbad'
    have h2 : collectStops c2 = none := collectStops_eq_none c2 kv2 hkv2 hbad2
    simp [get_next_interval_start, h1, h2]

/- ## Concrete services used by witnesses and counterexamples -/

/-- Frequency service that always answers 206 with an empty results
mapping. -/
def svc206empty : FreqRequest → FreqResponse Unit := fun _ => ⟨206, [], "empty page"⟩

/- ## Claim C1 -/

/-- Claim C1: for every non-empty accumulated mapping whose keys all
parse as `length@start`, `get_next_interval_start` returns the maximum
over all accumulated keys of `start + length`, plus one, computed over
the entire mapping it is given (the paginator passes it the whole
accumulator); in particular on the key set consisting of "10@0" and
"5@20" it returns 26. -/
theorem next_interval_start_is_max_plus_one :
    (∀ (α : Type) (coll : List (String × α)), coll ≠ [] →
        (∀ kv ∈ coll, (keyStop kv.1).isSome) →
        ∃ mx, get_next_interval_start coll = some (mx + 1)
          ∧ (∃ kv ∈ coll, keyStop kv.1 = some mx)
          ∧ (∀ kv ∈ coll, ∀ v, keyStop kv.1 = some v → v ≤ mx))
    ∧ get_next_interval_start [("10@0", ()), ("5@20", ())] = some 26 :=
  ⟨fun _ coll hne h => get_next_interval_start_spec coll hne h, by decide⟩

/-- Witness for C1: the general part applied to the concrete mapping
with keys "10@0" and "5@20". -/
theorem next_interval_start_is_max_plus_one_witness :
    ∃ mx, get_next_interval_start [("10@0", ()), ("5@20", ())] = some (mx + 1)
      ∧ (∃ kv ∈ [("10@0", ()), ("5@20", ())], keyStop kv.1 = some mx)
      ∧ (∀ kv ∈ [("10@0", ()), ("5@20", ())], ∀ v, keyStop kv.1 = some v → v ≤ mx) :=
  next_interval_start_is_max_plus_one.1 Unit [("10@0", ()), ("5@20", ())]
    (by decide) (by decide)

/- ## Claim C9 -/

/-- Claim C9: `get_next_interval_start` is undefined on an empty
mapping (Python's `max([])` raises a ValueError), so a 206 response
that contributes no records to an empty accumulator makes the
paginator fail with that ValueError instead of progressing: it issues
no further request and ends in the value-error failure state. -/
theorem next_interval_start_empty_fails :
    (∀ (α : Type), get_next_interval_start ([] : List (String × α)) = none)
    ∧ (∀ (α : Type) (service : FreqRequest → FreqResponse α) (fuel : Nat)
          (seq_id : String) (start stop : Int) (now : Nat),
        fuel ≠ 0 →
        (service (mkRequest seq_id start stop)).status = 206 →
        (service (mkRequest seq_id start stop)).results = [] →
        get_freq_by_interval service fuel seq_id start stop [] now
          = ⟨[(now, mkRequest seq_id start stop)], [], .failed .valueError⟩) := by
  constructor
  · intro α
    rfl
  · intro α service fuel seq_id start stop now hf h206 hres
    cases fuel with
    | zero => exact absurd rfl hf
    | succ f =>
      have hnone : get_next_interval_start ([] : List (String × α)) = none := rfl
      simp [get_freq_by_interval, h206, hres, hnone, dictUpdate]

/-- Witness for C9: the paginator applied to the service that always
answers 206 with no records. -/
theorem next_interval_start_empty_fails_witness :
    get_freq_by_interval svc206empty 3 "ACC" 0 10 [] 0
      = ⟨[(0, mkRequest "ACC" 0 10)], [], .failed .valueError⟩ :=
  next_interval_start_empty_fails.2 Unit svc206empty 3 "ACC" 0 10 0
    (by decide) (by decide) (by decide)

/- ## Claim C10 -/

/-- Claim C10: on a non-empty mapping whose keys all parse as
`length@start`, the value of `get_next_interval_start` is strictly
greater than `start + length` for every key of the mapping, and the
value depends only on the key set: a second mapping with the same key
set (of any record type, with any record values) yields the same
result. -/
theorem next_interval_start_bounds_and_key_only
    (α β : Type) (coll : List (String × α)) (coll2 : List (String × β))
    (h1 : coll ≠ []) (h2 : ∀ kv ∈ coll, (keyStop kv.1).isSome)
    (hk : ∀ k, k ∈ coll.map Prod.fst ↔ k ∈ coll2.map Prod.fst) :
    (∃ r, get_next_interval_start coll = some r
        ∧ ∀ kv ∈ coll, ∀ v, keyStop kv.1 = some v → v < r)
    ∧ get_next_interval_start coll = get_next_interval_start coll2 := by
  constructor
  · obtain ⟨mx, he, _, hb⟩ := get_next_interval_start_spec coll h1 h2
    exact ⟨mx + 1, he, fun kv hkv v hv => lt_of_le_of_lt (hb kv hkv v hv) (by omega)⟩
  · exact get_next_interval_start_keys_only coll coll2 hk

/-- Witness for C10: key set consisting of "10@0" and "5@20", compared
against a mapping with the same keys in reverse order, a duplicate, and
record values of a different type. -/
theorem next_interval_start_bounds_and_key_only_witness :
    (∃ r, get_next_interval_start [("10@0", 7), ("5@20", 9)] = some r
        ∧ ∀ kv ∈ [("10@0", 7), ("5@20", 9)], ∀ v, keyStop kv.1 = some v → v < r)
    ∧ get_next_interval_start [("10@0", 7), ("5@20", 9)]
        = get_next_interval_start [("5@20", false), ("10@0", true), ("10@0", false)] :=
  next_interval_start_bounds_and_key_only Nat Bool
    [("10@0", 7), ("5@20", 9)] [("5@20", false), ("10@0", true), ("10@0", false)]
    (by decide) (by decide) (by intro k; simp; tauto)

/- ## Branch equations of the paginator -/

theorem get_freq_zero {α : Type} (service : FreqRequest → FreqResponse α)
    (seq_id : String) (start stop : Int) (coll : List (String × α)) (now : Nat) :
    get_freq_by_interval service 0 seq_id start stop coll now = ⟨[], coll, .outOfFuel⟩ := rfl

theorem get_freq_200 {α : Type} (service : FreqRequest → FreqResponse α)
    (fuel : Nat) (seq_id : String) (start stop : Int) (coll : List (String × α)) (now : Nat)
    (h : (service (mkRequest seq_id start stop)).status = 200) :
    get_freq_by_interval service (fuel + 1) seq_id start stop coll now
      = ⟨[(now, mkRequest seq_id start stop)],
         dictUpdate coll (service (mkRequest seq_id start stop)).results, .done⟩ := by
  simp [get_freq_by_interval, h]

theorem get_freq_206_none {α : Type} (service : FreqRequest → FreqResponse α)
    (fuel : Nat) (seq_id : String) (start stop : Int) (coll : List (String × α)) (now : Nat)
    (h : (service (mkRequest seq_id start stop)).status = 206)
    (hns : get_next_interval_start
        (dictUpdate coll (service (mkRequest seq_id start stop)).results) = none) :
    get_freq_by_interval service (fuel + 1) seq_id start stop coll now
      = ⟨[(now, mkRequest seq_id start stop)],
         dictUpdate coll (service (mkRequest seq_id start stop)).results,
         .failed .valueError⟩ := by
  simp [get_freq_by_interval, h, hns]

theorem get_freq_206_some {α : Type} (service : FreqRequest → FreqResponse α)
    (fuel : Nat) (seq_id : String) (start stop : Int) (coll : List (String × α)) (now : Nat)
    (ns : Int)
    (h : (service (mkRequest seq_id start stop)).status = 206)
    (hns : get_next_interval_start
        (dictUpdate coll (service (mkRequest seq_id start stop)).results) = some ns) :
    get_freq_by_interval service (fuel + 1) seq_id start stop coll now
      = ⟨(now, mkRequest seq_id start stop)
            :: (get_freq_by_interval service fuel seq_id ns stop
                  (dictUpdate coll (service (mkRequest seq_id start stop)).results)
                  (now + 1)).trace,
         (get_freq_by_interval service fuel seq_id ns stop
            (dictUpdate coll (service (mkRequest seq_id start stop)).results)
            (now + 1)).coll,
         (get_freq_by_interval service fuel seq_id ns stop
            (dictUpdate coll (service (mkRequest seq_id start stop)).results)
            (now + 1)).outcome⟩ := by
  simp [get_freq_by_interval, h, hns]

theorem get_freq_err {α : Type} (service : FreqRequest → FreqResponse α)
    (fuel : Nat) (seq_id : String) (start stop : Int) (coll : List (String × α)) (now : Nat)
    (h200 : (service (mkRequest seq_id start stop)).status ≠ 200)
    (h206 : (service (mkRequest seq_id start stop)).status ≠ 206)
    (h400 : 400 ≤ (service (mkRequest seq_id start stop)).status) :
    get_freq_by_interval service (fuel + 1) seq_id start stop coll now
      = ⟨[(now, mkRequest seq_id start stop)], coll,
         .failed (.transportError (api_url seq_id start stop)
            (service (mkRequest seq_id start stop)).status
            (service (mkRequest seq_id start stop)).body)⟩ := by
  simp [get_freq_by_interval, h200, h206, h400]

theorem get_freq_other {α : Type} (service : FreqRequest → FreqResponse α)
    (fuel : Nat) (seq_id : String) (start stop : Int) (coll : List (String × α)) (now : Nat)
    (h200 : (service (mkRequest seq_id start stop)).status ≠ 200)
    (h206 : (service (mkRequest seq_id start stop)).status ≠ 206)
    (h400 : ¬ 400 ≤ (service (mkRequest seq_id start stop)).status) :
    get_freq_by_interval service (fuel + 1) seq_id start stop coll now
      = ⟨[(now, mkRequest seq_id start stop)], coll,
         .failed (.protocolError (service (mkRequest seq_id start stop)).status)⟩ := by
  simp [get_freq_by_interval, h200, h206, h400]

/- ## Claim C2 -/

/-- Claim C2: every request the paginator sends to the frequency
service encodes the interval of that call as a position and a length
with `length = stop - position + 1` (the stop bound never changes
across iterations, each iteration's position is its start bound, and
the first request's position is the top-level start). -/
theorem paginator_request_length_eq_stop_sub_start_plus_one
    (α : Type) (service : FreqRequest → FreqResponse α) (fuel : Nat)
    (seq_id : String) (start stop : Int) (coll : List (String × α)) (now : Nat) :
    ∀ tr ∈ (get_freq_by_interval service fuel seq_id start stop coll now).trace,
      tr.2.seq_id = seq_id ∧ tr.2.len = stop - tr.2.pos + 1 := by
  induction fuel generalizing start coll now with
  | zero =>
    intro tr htr
    rw [get_freq_zero] at htr
    simp at htr
  | succ f ih =>
    intro tr htr
    by_cases h200 : (service (mkRequest seq_id start stop)).status = 200
    · rw [get_freq_200 service f seq_id start stop coll now h200] at htr
      simp at htr
      subst htr
      exact ⟨rfl, rfl⟩
    · by_cases h206 : (service (mkRequest seq_id start stop)).status = 206
      · cases hns : get_next_interval_start
            (dictUpdate coll (service (mkRequest seq_id start stop)).results) with
        | none =>
          rw [get_freq_206_none service f seq_id start stop coll now h206 hns] at htr
          simp at htr
          subst htr
          exact ⟨rfl, rfl⟩
        | some ns =>
          rw [get_freq_206_some service f seq_id start stop coll now ns h206 hns] at htr
          rcases List.mem_cons.mp htr with rfl | htr
          · exact ⟨rfl, rfl⟩
          · exact ih ns _ (now + 1) tr htr
      · by_cases h400 : 400 ≤ (service (mkRequest seq_id start stop)).status
        · rw [get_freq_err service f seq_id start stop coll now h200 h206 h400] at htr
          simp at htr
          subst htr
          exact ⟨rfl, rfl⟩
        · rw [get_freq_other service f seq_id start stop coll now h200 h206 h400] at htr
          simp at htr
          subst htr
          exact ⟨rfl, rfl⟩

/-- Frequency service that answers the first interval (position 0) with
a 206 page containing one record and any other interval with a 500
error. -/
def svcPageThenError : FreqRequest → FreqResponse Nat := fun req =>
  if req.pos = 0 then ⟨206, [("5@0", 7)], "page1"⟩ else ⟨500, [], "boom"⟩

/-- Witness for C2: the second request of a concrete paginated run
(bounds 0 and 10, one 206 page, then an error) satisfies the length
equation. -/
theorem paginator_request_length_eq_stop_sub_start_plus_one_witness :
    ((1, mkRequest "NC" 6 10) : Nat × FreqRequest).2.seq_id = "NC"
      ∧ ((1, mkRequest "NC" 6 10) : Nat × FreqRequest).2.len
          = 10 - ((1, mkRequest "NC" 6 10) : Nat × FreqRequest).2.pos + 1 :=
  paginator_request_length_eq_stop_sub_start_plus_one Nat svcPageThenError 5 "NC" 0 10 [] 0
    (1, mkRequest "NC" 6 10) (by decide)

/- ## Claim C3 -/

/-- Claim C3: for every gene id whose summary response is a success and
contains at least one genomic-info record, the locator returns the
accession together with a start and stop with `start ≤ stop`, swapping
the upstream-reported coordinates exactly when the upstream reports
`start > stop`. -/
theorem gene_loc_normalizes_start_le_stop
    (service : String → SummaryResponse) (gene_id : String)
    (tbl : List (String × GeneEntry)) (entry : GeneEntry)
    (g : GenomicInfo) (rest : List GenomicInfo)
    (h200 : (service gene_id).status = 200)
    (hres : (service gene_id).data.result = some tbl)
    (hent : pyLookup tbl gene_id = some entry)
    (hinfo : entry.genomicinfo = some (g :: rest)) :
    ∃ s t, get_gene_loc service gene_id = .ok (g.chraccver, s, t)
      ∧ s ≤ t
      ∧ ((g.chrstart > g.chrstop ∧ s = g.chrstop ∧ t = g.chrstart)
          ∨ (g.chrstart ≤ g.chrstop ∧ s = g.chrstart ∧ t = g.chrstop)) := by
  by_cases hsw : g.chrstop < g.chrstart
  · refine ⟨g.chrstop, g.chrstart, ?_, le_of_lt hsw, Or.inl ⟨hsw, rfl, rfl⟩⟩
    simp [get_gene_loc, h200, hres, hent, hinfo, hsw]
  · push_neg at hsw
    refine ⟨g.chrstart, g.chrstop, ?_, hsw, Or.inr ⟨hsw, rfl, rfl⟩⟩
    simp [get_gene_loc, h200, hres, hent, hinfo, not_lt.mpr hsw]

/-- Summary service answering every query with a success body whose
single gene entry carries reversed coordinates (a minus-strand gene, as
TP53 does upstream). -/
def sumSvcReversed : String → SummaryResponse := fun _ =>
  ⟨200, ⟨some [("7157", ⟨some [⟨"NC_000017.11", 7687490, 7668421⟩]⟩)]⟩⟩

/-- Witness for C3: the reversed-coordinate service; the locator swaps
and returns `start ≤ stop`. -/
theorem gene_loc_normalizes_start_le_stop_witness :
    ∃ s t, get_gene_loc sumSvcReversed "7157" = .ok ("NC_000017.11", s, t)
      ∧ s ≤ t
      ∧ (((7687490 : Int) > 7668421 ∧ s = 7668421 ∧ t = 7687490)
          ∨ ((7687490 : Int) ≤ 7668421 ∧ s = 7687490 ∧ t = 7668421)) :=
  gene_loc_normalizes_start_le_stop sumSvcReversed "7157"
    [("7157", ⟨some [⟨"NC_000017.11", 7687490, 7668421⟩]⟩)]
    ⟨some [⟨"NC_000017.11", 7687490, 7668421⟩]⟩
    ⟨"NC_000017.11", 7687490, 7668421⟩ []
    (by decide) (by decide) (by decide) (by decide)

/- ## Claim C4 -/

/-- Claim C4: on a success (HTTP 200) summary response whose body lacks
a `result` entry, lacks the queried gene id inside `result`, lacks a
`genomicinfo` key for that gene, or carries an empty `genomicinfo`
array, the locator fails with a lookup error (for the first three cases
this is the validation raise, for the empty array it is the IndexError
of `genomicinfo[0]`, a subclass of LookupError in Python). -/
theorem gene_loc_missing_info_lookup_error
    (service : String → SummaryResponse) (gene_id : String)
    (h200 : (service gene_id).status = 200)
    (hmiss :
      (service gene_id).data.result = none
      ∨ (∃ tbl, (service gene_id).data.result = some tbl ∧ pyLookup tbl gene_id = none)
      ∨ (∃ tbl entry, (service gene_id).data.result = some tbl
          ∧ pyLookup tbl gene_id = some entry ∧ entry.genomicinfo = none)
      ∨ (∃ tbl entry, (service gene_id).data.result = some tbl
          ∧ pyLookup tbl gene_id = some entry ∧ entry.genomicinfo = some [])) :
    ∃ msg, get_gene_loc service gene_id = .error (.lookupError msg) := by
  rcases hmiss with h | ⟨tbl, h1, h2⟩ | ⟨tbl, entry, h1, h2, h3⟩ | ⟨tbl, entry, h1, h2, h3⟩
  · exact ⟨"Genomic information is not avaible for this gene", by simp [get_gene_loc, h200, h]⟩
  · exact ⟨"Genomic information is not avaible for this gene",
      by simp [get_gene_loc, h200, h1, h2]⟩
  · exact ⟨"Genomic information is not avaible for this gene",
      by simp [get_gene_loc, h200, h1, h2, h3]⟩
  · exact ⟨"list index out of range", by simp [get_gene_loc, h200, h1, h2, h3]⟩

/-- Summary service answering with a success body whose gene entry has
a present but empty `genomicinfo` array. -/
def sumSvcEmptyInfo : String → SummaryResponse := fun _ =>
  ⟨200, ⟨some [("7157", ⟨some []⟩)]⟩⟩

/-- Witness for C4: the empty-`genomicinfo` service makes the locator
fail with a lookup error. -/
theorem gene_loc_missing_info_lookup_error_witness :
    ∃ msg, get_gene_loc sumSvcEmptyInfo "7157" = .error (.lookupError msg) :=
  gene_loc_missing_info_lookup_error sumSvcEmptyInfo "7157" (by decide)
    (Or.inr (Or.inr (Or.inr ⟨[("7157", ⟨some []⟩)], ⟨some []⟩, by decide, by decide, by decide⟩)))

/- ## Claim C5 -/

/-- Counterexample to claim C5 as stated: the transport and protocol
errors are not the only failure modes of the paginator.  A service
whose every response has the recognized status 206 but contributes no
records to an empty accumulator makes the paginator fail with the
ValueError of `max([])` inside `get_next_interval_start`, which is
neither a transport error nor a protocol error. -/
theorem paginator_value_error_counterexample :
    (svc206empty (mkRequest "SEQ" 5 30)).status = 206
    ∧ (get_freq_by_interval svc206empty 4 "SEQ" 5 30 [] 0).outcome
        = .failed .valueError := by
  decide

/-- Claim C5 (amended): a response with status ≥ 400 makes the
paginator fail with a transport error carrying the request URL, the
status and the response body; a response whose status is none of 200,
206 and ≥ 400 makes it fail with a protocol error carrying that
status; and every failure of the paginator is of one of exactly three
shapes: such a transport error, such a protocol error, or the
ValueError arising in the next-start computation after a 206 page. -/
theorem paginator_failure_modes_characterization
    (α : Type) (service : FreqRequest → FreqResponse α) :
    (∀ (fuel : Nat) (seq_id : String) (start stop : Int)
        (coll : List (String × α)) (now : Nat),
      fuel ≠ 0 → 400 ≤ (service (mkRequest seq_id start stop)).status →
      (get_freq_by_interval service fuel seq_id start stop coll now).outcome
        = .failed (.transportError (api_url seq_id start stop)
            (service (mkRequest seq_id start stop)).status
            (service (mkRequest seq_id start stop)).body))
    ∧ (∀ (fuel : Nat) (seq_id : String) (start stop : Int)
        (coll : List (String × α)) (now : Nat),
      fuel ≠ 0 →
      (service (mkRequest seq_id start stop)).status ≠ 200 →
      (service (mkRequest seq_id start stop)).status ≠ 206 →
      (service (mkRequest seq_id start stop)).status < 400 →
      (get_freq_by_interval service fuel seq_id start stop coll now).outcome
        = .failed (.protocolError (service (mkRequest seq_id start stop)).status))
    ∧ (∀ (fuel : Nat) (seq_id : String) (start stop : Int)
        (coll : List (String × α)) (now : Nat) (e : PagErr),
      (get_freq_by_interval service fuel seq_id start stop coll now).outcome = .failed e →
      (∃ p, (e = .transportError (api_url seq_id p stop)
                (service (mkRequest seq_id p stop)).status
                (service (mkRequest seq_id p stop)).body
            ∧ 400 ≤ (service (mkRequest seq_id p stop)).status)
          ∨ (e = .protocolError (service (mkRequest seq_id p stop)).status
            ∧ (service (mkRequest seq_id p stop)).status ≠ 200
            ∧ (service (mkRequest seq_id p stop)).status ≠ 206
            ∧ (service (mkRequest seq_id p stop)).status < 400))
        ∨ e = .valueError) := by
  refine ⟨?_, ?_, ?_⟩
  · intro fuel seq_id start stop coll now hf h400
    cases fuel with
    | zero => exact absurd rfl hf
    | succ f =>
      have h200 : (service (mkRequest seq_id start stop)).status ≠ 200 := by omega
      have h206 : (service (mkRequest seq_id start stop)).status ≠ 206 := by omega
      rw [get_freq_err service f seq_id start stop coll now h200 h206 h400]
  · intro fuel seq_id start stop coll now hf h200 h206 hlt
    cases fuel with
    | zero => exact absurd rfl hf
    | succ f =>
      rw [get_freq_other service f seq_id start stop coll now h200 h206 (by omega)]
  · intro fuel
    induction fuel with
    | zero =>
      intro seq_id start stop coll now e h
      rw [get_freq_zero] at h
      simp at h
    | succ f ih =>
      intro seq_id start stop coll now e h
      by_cases h200 : (service (mkRequest seq_id start stop)).status = 200
      · rw [get_freq_200 service f seq_id start stop coll now h200] at h
        simp at h
      · by_cases h206 : (service (mkRequest seq_id start stop)).status = 206
        · cases hns : get_next_interval_start
              (dictUpdate coll (service (mkRequest seq_id start stop)).results) with
          | none =>
            rw [get_freq_206_none service f seq_id start stop coll now h206 hns] at h
            simp at h
            exact Or.inr h.symm
          | some ns =>
            rw [get_freq_206_some service f seq_id start stop coll now ns h206 hns] at h
            exact ih seq_id ns stop _ (now + 1) e h
        · by_cases h400 : 400 ≤ (service (mkRequest seq_id start stop)).status
          · rw [get_freq_err service f seq_id start stop coll now h200 h206 h400] at h
            simp at h
            exact Or.inl ⟨start, Or.inl ⟨h.symm, h400⟩⟩
          · rw [get_freq_other service f seq_id start stop coll now h200 h206 h400] at h
            simp at h
            exact Or.inl ⟨start, Or.inr ⟨h.symm, h200, h206, by omega⟩⟩

/-- Frequency service answering every query with a 500 error. -/
def svc500 : FreqRequest → FreqResponse Nat := fun _ => ⟨500, [], "server error"⟩

/-- Witness for the amended C5: a 500 response produces the transport
error carrying the request URL, the status and the body. -/
theorem paginator_failure_modes_characterization_witness :
    (get_freq_by_interval svc500 1 "NC" 0 10 [] 0).outcome
      = .failed (.transportError (api_url "NC" 0 10) 500 "server error") :=
  (paginator_failure_modes_characterization Nat svc500).1 1 "NC" 0 10 [] 0
    (by decide) (by decide)

/- ## Claim C6 -/

/-- Counterexample to claim C6 as stated: with a service whose first
page is a 206 carrying one record and whose second answer is a 500
error, the failure does propagate, but the final state of the (global)
accumulator still holds the record merged during the earlier successful
page — the partial result remains visible to the caller, it is not
discarded. -/
theorem paginator_partial_result_visible_counterexample :
    (get_freq_by_interval svcPageThenError 5 "NC" 0 10 [] 0).outcome
        = .failed (.transportError (api_url "NC" 6 10) 500 "boom")
    ∧ (get_freq_by_interval svcPageThenError 5 "NC" 0 10 [] 0).coll = [("5@0", 7)] := by
  decide

/-- Keys already accumulated are never dropped by the paginator,
whatever the outcome. -/
theorem paginator_coll_keys_monotone {α : Type} (service : FreqRequest → FreqResponse α)
    (seq_id : String) (stop : Int) :
    ∀ (fuel : Nat) (start : Int) (coll : List (String × α)) (now : Nat) (k : String),
      k ∈ coll.map Prod.fst →
      k ∈ ((get_freq_by_interval service fuel seq_id start stop coll now).coll).map Prod.fst := by
  intro fuel
  induction fuel with
  | zero =>
    intro start coll now k hk
    rw [get_freq_zero]
    exact hk
  | succ f ih =>
    intro start coll now k hk
    by_cases h200 : (service (mkRequest seq_id start stop)).status = 200
    · rw [get_freq_200 service f seq_id start stop coll now h200]
      exact (mem_keys_dictUpdate _ _ _).mpr (Or.inl hk)
    · by_cases h206 : (service (mkRequest seq_id start stop)).status = 206
      · cases hns : get_next_interval_start
            (dictUpdate coll (service (mkRequest seq_id start stop)).results) with
        | none =>
          rw [get_freq_206_none service f seq_id start stop coll now h206 hns]
          exact (mem_keys_dictUpdate _ _ _).mpr (Or.inl hk)
        | some ns =>
          rw [get_freq_206_some service f seq_id start stop coll now ns h206 hns]
          exact ih ns _ (now + 1) k ((mem_keys_dictUpdate _ _ _).mpr (Or.inl hk))
      · by_cases h400 : 400 ≤ (service (mkRequest seq_id start stop)).status
        · rw [get_freq_err service f seq_id start stop coll now h200 h206 h400]
          exact hk
        · rw [get_freq_other service f seq_id start stop coll now h200 h206 h400]
          exact hk

/-- Claim C6 (amended): when an iteration of the paginator fails, the
failure propagates to the caller, but the records merged during
earlier successful pages of the same top-level call are not discarded:
every key already accumulated and every key of a 206 page stays in the
final (global) accumulator, whatever the outcome, and the outcome of a
deeper iteration is surfaced unchanged. -/
theorem paginator_retains_merged_records_on_failure
    (α : Type) (service : FreqRequest → FreqResponse α) (fuel : Nat)
    (seq_id : String) (start stop : Int) (coll : List (String × α)) (now : Nat) :
    (∀ k, k ∈ coll.map Prod.fst →
      k ∈ ((get_freq_by_interval service fuel seq_id start stop coll now).coll).map Prod.fst)
    ∧ (fuel ≠ 0 → (service (mkRequest seq_id start stop)).status = 206 →
        ∀ kv ∈ (service (mkRequest seq_id start stop)).results,
          kv.1 ∈ ((get_freq_by_interval service fuel seq_id start stop coll now).coll).map Prod.fst)
    ∧ (∀ (e : PagErr) (ns : Int), fuel ≠ 0 →
        (service (mkRequest seq_id start stop)).status = 206 →
        get_next_interval_start
          (dictUpdate coll (service (mkRequest seq_id start stop)).results) = some ns →
        (get_freq_by_interval service (fuel - 1) seq_id ns stop
          (dictUpdate coll (service (mkRequest seq_id start stop)).results)
          (now + 1)).outcome = .failed e →
        (get_freq_by_interval service fuel seq_id start stop coll now).outcome = .failed e) := by
  refine ⟨fun k hk => paginator_coll_keys_monotone service seq_id stop fuel start coll now k hk,
    ?_, ?_⟩
  · intro hf h206 kv hkv
    cases fuel with
    | zero => exact absurd rfl hf
    | succ f =>
      have hmem : kv.1 ∈ (dictUpdate coll (service (mkRequest seq_id start stop)).results).map
          Prod.fst :=
        (mem_keys_dictUpdate _ _ _).mpr (Or.inr (List.mem_map_of_mem _ hkv))
      cases hns : get_next_interval_start
          (dictUpdate coll (service (mkRequest seq_id start stop)).results) with
      | none =>
        rw [get_freq_206_none service f seq_id start stop coll now h206 hns]
        exact hmem
      | some ns =>
        rw [get_freq_206_some service f seq_id start stop coll now ns h206 hns]
        exact paginator_coll_keys_monotone service seq_id stop f ns _ (now + 1) kv.1 hmem
  · intro e ns hf h206 hns hrec
    cases fuel with
    | zero => exact absurd rfl hf
    | succ f =>
      rw [get_freq_206_some service f seq_id start stop coll now ns h206 hns]
      simpa using hrec

/-- Witness for the amended C6: in the concrete run of the
one-206-page-then-500 service, the record of the successful first page
is still a key of the final accumulator after the failure. -/
theorem paginator_retains_merged_records_on_failure_witness :
    ("5@0" : String)
      ∈ ((get_freq_by_interval svcPageThenError 5 "NC" 0 10 [] 0).coll).map Prod.fst :=
  (paginator_retains_merged_records_on_failure Nat svcPageThenError 5 "NC" 0 10 [] 0).2.1
    (by decide) (by decide) ("5@0", 7) (by decide)

/- ## Claim C8 -/

/-- Frequency service answering every query with a single complete
(200) page. -/
def svcOnePage : FreqRequest → FreqResponse Unit := fun _ => ⟨200, [("3@7668421", ())], "ok"⟩

/-- Counterexample to claim C8 as stated: nothing blocks between the
locator's external request and the paginator's first external request.
In the notebook's top-level run the locator contains no delay and the
paginator sleeps only before its recursive call, so with the virtual
clock started at 0 the esummary request and the first frequency request
are both issued at second 0: two consecutive external calls with zero
spacing, less than the configured one-second spacing, and both calls
succeed (nothing was blocked or rejected). -/
theorem rate_spacing_violated_counterexample :
    (run_notebook sumSvcReversed svcOnePage 3 "7157" 0).request_times = [0, 0]
    ∧ (run_notebook sumSvcReversed svcOnePage 3 "7157" 0).outcome = .done := by
  decide

/-- Virtual timestamps of the requests of one paginated run are the
consecutive seconds starting at the call's start time: each iteration
sleeps exactly one second before the next. -/
theorem paginator_trace_times {α : Type} (service : FreqRequest → FreqResponse α)
    (seq_id : String) (stop : Int) :
    ∀ (fuel : Nat) (start : Int) (coll : List (String × α)) (now : Nat),
      ((get_freq_by_interval service fuel seq_id start stop coll now).trace).map Prod.fst
        = List.range' now (get_freq_by_interval service fuel seq_id start stop coll now).trace.length := by
  intro fuel
  induction fuel with
  | zero =>
    intro start coll now
    rw [get_freq_zero]
    rfl
  | succ f ih =>
    intro start coll now
    by_cases h200 : (service (mkRequest seq_id start stop)).status = 200
    · rw [get_freq_200 service f seq_id start stop coll now h200]
      rfl
    · by_cases h206 : (service (mkRequest seq_id start stop)).status = 206
      · cases hns : get_next_interval_start
            (dictUpdate coll (service (mkRequest seq_id start stop)).results) with
        | none =>
          rw [get_freq_206_none service f seq_id start stop coll now h206 hns]
          rfl
        | some ns =>
          rw [get_freq_206_some service f seq_id start stop coll now ns h206 hns]
          simp only [List.map_cons, List.length_cons, List.range'_succ]
          rw [ih ns _ (now + 1)]
      · by_cases h400 : 400 ≤ (service (mkRequest seq_id start stop)).status
        · rw [get_freq_err service f seq_id start stop coll now h200 h206 h400]
          rfl
        · rw [get_freq_other service f seq_id start stop coll now h200 h206 h400]
          rfl

/-- Claim C8 (amended): the one-second spacing is enforced only between
successive paginator iterations within one top-level call, by the
explicit one-second sleep before the recursive call: consecutive
requests of one paginated run are stamped exactly one second apart.  No
delay is enforced before the locator's call or before the paginator's
first call (the rate-limit decorator raises instead of blocking and the
two functions keep separate windows), as the counterexample shows. -/
theorem paginator_iteration_spacing
    (α : Type) (service : FreqRequest → FreqResponse α) (fuel : Nat)
    (seq_id : String) (start stop : Int) (coll : List (String × α)) (now : Nat) :
    (((get_freq_by_interval service fuel seq_id start stop coll now).trace).map Prod.fst
        = List.range' now (get_freq_by_interval service fuel seq_id start stop coll now).trace.length)
    ∧ ∀ (i : Nat) (h : i + 1 < (get_freq_by_interval service fuel seq_id start stop coll now).trace.length),
        ((get_freq_by_interval service fuel seq_id start stop coll now).trace.get ⟨i + 1, h⟩).1
          = ((get_freq_by_interval service fuel seq_id start stop coll now).trace.get
              ⟨i, by omega⟩).1 + 1 := by
  have htimes := paginator_trace_times service seq_id stop fuel start coll now
  refine ⟨htimes, ?_⟩
  intro i h
  have hlen : ((get_freq_by_interval service fuel seq_id start stop coll now).trace.map Prod.fst).length
      = (get_freq_by_interval service fuel seq_id start stop coll now).trace.length := by
    simp
  have hget : ∀ (j : Nat) (hj : j < (get_freq_by_interval service fuel seq_id start stop coll now).trace.length),
      ((get_freq_by_interval service fuel seq_id start stop coll now).trace.get ⟨j, hj⟩).1 = now + j := by
    intro j hj
    have hj' : j < ((get_freq_by_interval service fuel seq_id start stop coll now).trace.map Prod.fst).length := by
      simpa using hj
    have h1 : ((get_freq_by_interval service fuel seq_id start stop coll now).trace.map Prod.fst).get
        ⟨j, hj'⟩ = now + 1 * j := by
      rw [List.get_eq_getElem, List.getElem_of_eq htimes hj']
      exact List.getElem_range' j _
    rw [List.get_eq_getElem, List.getElem_map] at h1
    simpa using h1
  rw [hget (i + 1) h, hget i (by omega)]
  omega

/-- Witness for the amended C8: in the concrete one-206-page-then-error
run, the second request is stamped exactly one second after the first. -/
theorem paginator_iteration_spacing_witness :
    ((get_freq_by_interval svcPageThenError 5 "NC" 0 10 [] 0).trace.get ⟨1, by decide⟩).1
      = ((get_freq_by_interval svcPageThenError 5 "NC" 0 10 [] 0).trace.get ⟨0, by decide⟩).1 + 1 :=
  (paginator_iteration_spacing Nat svcPageThenError 5 "NC" 0 10 [] 0).2 0 (by decide)

/- ## Claim C7: pagination against a conforming service -/

theorem overlapsB_true_iff (r : SRec) (qs stop : Int) :
    overlapsB r qs (stop - qs + 1) = true ↔ qs ≤ rstop r ∧ r.start ≤ stop := by
  have h : qs + (stop - qs + 1) - 1 = stop := by ring
  simp [overlapsB, h]

/-- Under the invariant that the records before position `m` end below
the queried start and the records from position `m` on end at or after
it, the overlap filter of the service keeps exactly the tail from `m`. -/
theorem overl_filter (recs : List SRec) (m : Nat) (qs stop : Int)
    (Hstart : ∀ r ∈ recs, r.start ≤ stop)
    (hlo : ∀ r ∈ recs.take m, rstop r < qs)
    (hhi : ∀ r ∈ recs.drop m, qs ≤ rstop r) :
    recs.filter (fun r => overlapsB r qs (stop - qs + 1)) = recs.drop m := by
  conv_lhs => rw [← List.take_append_drop m recs]
  rw [List.filter_append]
  have h1 : (recs.take m).filter (fun r => overlapsB r qs (stop - qs + 1)) = [] := by
    rw [List.filter_eq_nil_iff]
    intro r hr hov
    have hlt := hlo r hr
    have := ((overlapsB_true_iff r qs stop).mp hov).1
    omega
  have h2 : (recs.drop m).filter (fun r => overlapsB r qs (stop - qs + 1)) = recs.drop m := by
    rw [List.filter_eq_self]
    intro r hr
    exact (overlapsB_true_iff r qs stop).mpr ⟨hhi r hr, Hstart r (List.drop_subset m recs hr)⟩
  rw [h1, h2, List.nil_append]

theorem kmap_keys (rl : List SRec) :
    (rl.map (fun r => (r.key, (() : Unit)))).map Prod.fst = rl.map SRec.key := by
  simp [List.map_map]

/-- Main induction for C7: starting from the state in which the first
`m` records (in service order) are accumulated and the queried start
lies strictly above their stops and at or below all remaining stops,
the paginator finishes with the full record set and issues
`(n - m - 1) / P + 1` further requests. -/
theorem pag_loop (P : Nat) (recs : List SRec) (seq_id : String) (stop : Int)
    (HP : 0 < P)
    (Hparse : ∀ r ∈ recs, keyStop r.key = some (rstop r))
    (Hnodup : (recs.map SRec.key).Nodup)
    (Hmono : recs.Pairwise (fun a b => rstop a < rstop b))
    (Hstart : ∀ r ∈ recs, r.start ≤ stop) :
    ∀ (fuel m : Nat) (qs : Int) (now : Nat),
      m ≤ recs.length →
      recs.length - m < fuel →
      (∀ r ∈ recs.take m, rstop r < qs) →
      (∀ r ∈ recs.drop m, qs ≤ rstop r) →
      (get_freq_by_interval (serviceOf P recs) fuel seq_id qs stop
          ((recs.take m).map (fun r => (r.key, ()))) now).outcome = .done
      ∧ (get_freq_by_interval (serviceOf P recs) fuel seq_id qs stop
          ((recs.take m).map (fun r => (r.key, ()))) now).coll
          = recs.map (fun r => (r.key, ()))
      ∧ (get_freq_by_interval (serviceOf P recs) fuel seq_id qs stop
          ((recs.take m).map (fun r => (r.key, ()))) now).trace.length
          = (recs.length - m - 1) / P + 1 := by
  intro fuel
  induction fuel with
  | zero =>
    intro m qs now hm hfuel hlo hhi
    exact absurd hfuel (Nat.not_lt_zero _)
  | succ f ih =>
    intro m qs now hm hfuel hlo hhi
    have hfilter : recs.filter (fun r => overlapsB r qs (stop - qs + 1)) = recs.drop m :=
      overl_filter recs m qs stop Hstart hlo hhi
    by_cases hle : recs.length - m ≤ P
    · -- the remaining records fit in one complete page
      have hresp : serviceOf P recs (mkRequest seq_id qs stop)
          = ⟨200, (recs.drop m).map (fun r => (r.key, ())), "complete"⟩ := by
        simp only [serviceOf, mkRequest, hfilter]
        rw [if_pos]
        rw [List.length_drop]
        omega
      have h200 : (serviceOf P recs (mkRequest seq_id qs stop)).status = 200 := by
        rw [hresp]
      rw [get_freq_200 (serviceOf P recs) f seq_id qs stop _ now h200]
      have hnd : (((recs.take m).map (fun r => (r.key, ()))).map Prod.fst
          ++ ((recs.drop m).map (fun r => (r.key, ()))).map Prod.fst).Nodup := by
        rw [kmap_keys, kmap_keys, ← List.map_append, List.take_append_drop]
        exact Hnodup
      have hupd : dictUpdate ((recs.take m).map (fun r => (r.key, ())))
          ((serviceOf P recs (mkRequest seq_id qs stop)).results)
          = recs.map (fun r => (r.key, ())) := by
        rw [hresp]
        rw [dictUpdate_of_nodup _ _ hnd, ← List.map_append, List.take_append_drop]
      refine ⟨rfl, by simpa using hupd, ?_⟩
      have hdiv : (recs.length - m - 1) / P = 0 := Nat.div_eq_of_lt (by omega)
      simp [hdiv]
    · -- a capped 206 page of exactly P records
      push_neg at hle
      have hresp : serviceOf P recs (mkRequest seq_id qs stop)
          = ⟨206, ((recs.drop m).take P).map (fun r => (r.key, ())), "first page only"⟩ := by
        simp only [serviceOf, mkRequest, hfilter]
        rw [if_neg]
        rw [List.length_drop]
        omega
      have h206 : (serviceOf P recs (mkRequest seq_id qs stop)).status = 206 := by
        rw [hresp]
      have hnd : (((recs.take m).map (fun r => (r.key, ()))).map Prod.fst
          ++ (((recs.drop m).take P).map (fun r => (r.key, ()))).map Prod.fst).Nodup := by
        rw [kmap_keys, kmap_keys, ← List.map_append, ← List.take_add, List.map_take]
        exact List.Nodup.sublist (List.take_sublist _ _) Hnodup
      have hcoll' : dictUpdate ((recs.take m).map (fun r => (r.key, ())))
          ((serviceOf P recs (mkRequest seq_id qs stop)).results)
          = (recs.take (m + P)).map (fun r => (r.key, ())) := by
        rw [hresp]
        rw [dictUpdate_of_nodup _ _ hnd, ← List.map_append, ← List.take_add]
      -- the merged accumulator is the first m + P records
      have hsubtake : ∀ r ∈ recs.take (m + P), r ∈ recs := fun r hr =>
        List.take_subset _ _ hr
      have htakene : (recs.take (m + P)).map (fun r => (r.key, (() : Unit))) ≠ [] := by
        apply List.ne_nil_of_length_pos
        rw [List.length_map, List.length_take]
        omega
      have hall : ∀ kv ∈ (recs.take (m + P)).map (fun r => (r.key, (() : Unit))),
          (keyStop kv.1).isSome := by
        intro kv hkv
        obtain ⟨r, hr, rfl⟩ := List.mem_map.mp hkv
        rw [Hparse r (hsubtake r hr)]
        rfl
      obtain ⟨mx, hns, ⟨kv, hkv, hkvmx⟩, hbound⟩ :=
        get_next_interval_start_spec ((recs.take (m + P)).map (fun r => (r.key, ()))) htakene hall
      obtain ⟨r0, hr0, hr0kv⟩ := List.mem_map.mp hkv
      have hmx : rstop r0 = mx := by
        have := Hparse r0 (hsubtake r0 hr0)
        rw [← hr0kv] at hkvmx
        exact Option.some.inj (this.symm.trans hkvmx)
      have hlo' : ∀ r ∈ recs.take (m + P), rstop r < mx + 1 := by
        intro r hr
        have := hbound (r.key, ()) (List.mem_map_of_mem _ hr) (rstop r)
          (Hparse r (hsubtake r hr))
        omega
      have hcross : ∀ a ∈ recs.take (m + P), ∀ b ∈ recs.drop (m + P), rstop a < rstop b := by
        have hPW : (recs.take (m + P) ++ recs.drop (m + P)).Pairwise
            (fun a b => rstop a < rstop b) := by
          rw [List.take_append_drop]
          exact Hmono
        exact fun a ha b hb => (List.pairwise_append.mp hPW).2.2 a ha b hb
      have hhi' : ∀ r ∈ recs.drop (m + P), mx + 1 ≤ rstop r := by
        intro r hr
        have := hcross r0 hr0 r hr
        omega
      have hns' : get_next_interval_start
          (dictUpdate ((recs.take m).map (fun r => (r.key, ())))
            ((serviceOf P recs (mkRequest seq_id qs stop)).results)) = some (mx + 1) := by
        rw [hcoll']
        exact hns
      rw [get_freq_206_some (serviceOf P recs) f seq_id qs stop _ now (mx + 1) h206 hns']
      have hrec := ih (m + P) (mx + 1) (now + 1) (by omega) (by omega) hlo' hhi'
      rw [hcoll']
      refine ⟨hrec.1, hrec.2.1, ?_⟩
      have harith : recs.length - m - 1 = (recs.length - (m + P) - 1) + P := by omega
      rw [List.length_cons, hrec.2.2, harith, Nat.add_div_right _ HP]

/-- Claim C7: against a conforming frequency service (a fixed record
set in position order with strictly increasing stop positions, distinct
keys that parse back to their length and start, all records overlapping
the queried interval) with page size `P`, the paginator terminates
successfully; when the true result count is at most `P` it issues
exactly one upstream call and its accumulator has as many entries as
the response returned; when the count exceeds `P` it issues exactly
`⌈count / P⌉` calls; in all cases the final accumulator's key set has
no duplicates and its size is the true distinct result count. -/
theorem paginator_call_count_and_completeness
    (P : Nat) (recs : List SRec) (seq_id : String) (start stop : Int)
    (fuel : Nat) (now : Nat)
    (HP : 0 < P)
    (Hparse : ∀ r ∈ recs, keyStop r.key = some (rstop r))
    (Hnodup : (recs.map SRec.key).Nodup)
    (Hmono : recs.Pairwise (fun a b => rstop a < rstop b))
    (Hstart : ∀ r ∈ recs, r.start ≤ stop)
    (Hover : ∀ r ∈ recs, start ≤ rstop r)
    (Hfuel : recs.length < fuel) :
    (get_freq_by_interval (serviceOf P recs) fuel seq_id start stop [] now).outcome = .done
    ∧ (recs.length ≤ P →
        (get_freq_by_interval (serviceOf P recs) fuel seq_id start stop [] now).trace.length = 1
        ∧ (get_freq_by_interval (serviceOf P recs) fuel seq_id start stop [] now).coll.length
            = (serviceOf P recs (mkRequest seq_id start stop)).results.length)
    ∧ (P < recs.length →
        (get_freq_by_interval (serviceOf P recs) fuel seq_id start stop [] now).trace.length
          = (recs.length + P - 1) / P)
    ∧ ((get_freq_by_interval (serviceOf P recs) fuel seq_id start stop [] now).coll.map
        Prod.fst).Nodup
    ∧ (get_freq_by_interval (serviceOf P recs) fuel seq_id start stop [] now).coll.length
        = recs.length := by
  have hmain := pag_loop P recs seq_id stop HP Hparse Hnodup Hmono Hstart fuel 0 start now
    (by omega) (by omega) (by simp) (by simpa using Hover)
  have hcoll0 : ((recs.take 0).map (fun r => (r.key, (() : Unit)))) = [] := rfl
  rw [hcoll0] at hmain
  obtain ⟨ho, hc, ht⟩ := hmain
  refine ⟨ho, ?_, ?_, ?_, ?_⟩
  · intro hle
    constructor
    · rw [ht]
      have : (recs.length - 0 - 1) / P = 0 := Nat.div_eq_of_lt (by omega)
      omega
    · have hfilter : recs.filter (fun r => overlapsB r start (stop - start + 1)) = recs := by
        have := overl_filter recs 0 start stop Hstart (by simp) (by simpa using Hover)
        simpa using this
      have hresp : serviceOf P recs (mkRequest seq_id start stop)
          = ⟨200, recs.map (fun r => (r.key, ())), "complete"⟩ := by
        simp only [serviceOf, mkRequest, hfilter]
        rw [if_pos]
        omega
      rw [hc, hresp]
  · intro hgt
    rw [ht]
    have h1 : recs.length - 0 - 1 = recs.length - 1 := by omega
    have h2 : recs.length - 1 = (recs.length - 1 - P) + P ∨ recs.length - 1 < P := by omega
    rcases h2 with h2 | h2
    · have : recs.length + P - 1 = (recs.length - 1) + P := by omega
      rw [h1, this, Nat.add_div_right _ HP]
    · -- here recs.length - 1 < P and P < recs.length force recs.length = P + something small
      have : recs.length ≤ P := by omega
      omega
  · rw [hc, kmap_keys]
    exact Hnodup
  · rw [hc, List.length_map]

/-- Witness for C7: page size 1, two unit-length records; the run
takes two calls (the ceiling of 2 / 1) and accumulates both records. -/
theorem paginator_call_count_and_completeness_witness :
    (get_freq_by_interval (serviceOf 1 [⟨"1@0", 1, 0⟩, ⟨"1@2", 1, 2⟩]) 3 "NC" 0 5 [] 0).outcome
        = .done
    ∧ ((2 : Nat) ≤ 1 →
        (get_freq_by_interval (serviceOf 1 [⟨"1@0", 1, 0⟩, ⟨"1@2", 1, 2⟩]) 3 "NC" 0 5 [] 0).trace.length = 1
        ∧ (get_freq_by_interval (serviceOf 1 [⟨"1@0", 1, 0⟩, ⟨"1@2", 1, 2⟩]) 3 "NC" 0 5 [] 0).coll.length
            = (serviceOf 1 [⟨"1@0", 1, 0⟩, ⟨"1@2", 1, 2⟩] (mkRequest "NC" 0 5)).results.length)
    ∧ ((1 : Nat) < 2 →
        (get_freq_by_interval (serviceOf 1 [⟨"1@0", 1, 0⟩, ⟨"1@2", 1, 2⟩]) 3 "NC" 0 5 [] 0).trace.length
          = (2 + 1 - 1) / 1)
    ∧ ((get_freq_by_interval (serviceOf 1 [⟨"1@0", 1, 0⟩, ⟨"1@2", 1, 2⟩]) 3 "NC" 0 5 [] 0).coll.map
        Prod.fst).Nodup
    ∧ (get_freq_by_interval (serviceOf 1 [⟨"1@0", 1, 0⟩, ⟨"1@2", 1, 2⟩]) 3 "NC" 0 5 [] 0).coll.length
        = 2 :=
  paginator_call_count_and_completeness 1 [⟨"1@0", 1, 0⟩, ⟨"1@2", 1, 2⟩] "NC" 0 5 3 0
    (by decide) (by decide) (by decide) (by decide) (by decide) (by decide) (by decide)

end ByGene
